import Mathlib

/-!
Verification of the NYC housing price predictor core: the frequency encoder
(`script/utils.py`) and the inference pipeline (`script/predict.py`,
`script/config.py`), shallowly embedded in Lean.

Tabular data is modelled column-major: a frame is a list of named columns,
each holding a list of cell values.  Python dicts become association lists
(insertion order preserved, first match wins on lookup, assignment overwrites
in place or appends — matching dict semantics for duplicate-free key lists).
Floats become exact rationals where the code only stores and compares them,
and reals where `np.expm1` (exp x - 1) is applied.
-/

set_option autoImplicit false

namespace NycHousing

/-- A cell value: a category string or a numeric value (floats as rationals). -/
inductive Val where
  | str (s : String)
  | num (q : ℚ)
deriving DecidableEq

/-- A named column of a tabular batch (one pandas DataFrame column). -/
structure Column where
  name : String
  values : List Val
deriving DecidableEq

/-- A tabular batch (pandas DataFrame), column-major. -/
abbrev Frame := List Column

/-- Association-list lookup: Python `d[k]` / `d.get(k)` (first match wins). -/
def assoc {α β : Type} [DecidableEq α] (m : List (α × β)) (k : α) : Option β :=
  match m with
  | [] => none
  | (k', v) :: rest => if k' = k then some v else assoc rest k

/-- Python dict assignment `d[k] = v`: overwrite the existing entry in place,
otherwise append at the end. -/
def dictInsert {α β : Type} [DecidableEq α] (m : List (α × β)) (k : α) (v : β) :
    List (α × β) :=
  match m with
  | [] => [(k, v)]
  | (k', v') :: rest => if k' = k then (k, v) :: rest else (k', v') :: dictInsert rest k v

/-- `pd.Series.value_counts().to_dict()`: each distinct value of the column
mapped to its number of occurrences. -/
def valueCounts (vs : List Val) : List (Val × Nat) :=
  vs.dedup.map (fun v => (v, vs.count v))

/-- `FrequencyEncoder` state: the `handle_unknown` policy fixed at construction
and the per-column frequency tables `frequency_maps_`. -/
structure FrequencyEncoder where
  handle_unknown : String
  frequency_maps_ : List (String × List (Val × Nat))
deriving DecidableEq

/-- `FrequencyEncoder.__init__`: stores the policy, starts with empty tables. -/
def FrequencyEncoder.mkNew (handle_unknown : String) : FrequencyEncoder :=
  { handle_unknown := handle_unknown, frequency_maps_ := [] }

/-- The fold performed by `FrequencyEncoder.fit`: for each column of the batch,
`self.frequency_maps_[col] = df[col].value_counts().to_dict()`. -/
def fitFold (m : List (String × List (Val × Nat))) (X : Frame) :
    List (String × List (Val × Nat)) :=
  X.foldl (fun acc c => dictInsert acc c.name (valueCounts c.values)) m

/-- `FrequencyEncoder.fit`: compute the frequency table of every column of the
batch and store it under the column's name.  Pre-existing tables are not
cleared first. -/
def FrequencyEncoder.fit (e : FrequencyEncoder) (X : Frame) : FrequencyEncoder :=
  { e with frequency_maps_ := fitFold e.frequency_maps_ X }

/-- The per-value mapping inside `FrequencyEncoder.transform`:
`df[col].map(frequency_map).fillna(0)` under the `zero` policy,
`.fillna(1)` under any other policy. -/
def encodeVal (handle_unknown : String) (frequency_map : List (Val × Nat)) (v : Val) : Val :=
  match assoc frequency_map v with
  | some n => Val.num (n : ℚ)
  | none => if handle_unknown = "zero" then Val.num 0 else Val.num 1

/-- `FrequencyEncoder.transform`: every column having a fitted table has its
values replaced by looked-up frequencies; other columns pass through
untouched. -/
def FrequencyEncoder.transform (e : FrequencyEncoder) (X : Frame) : Frame :=
  X.map (fun c =>
    match assoc e.frequency_maps_ c.name with
    | some fm => { c with values := c.values.map (encodeVal e.handle_unknown fm) }
    | none => c)

/-! ### Inference pipeline (`script/predict.py`, `script/config.py`) -/

/-- `config.EXPECTED_FEATURES`: the six required fields, in model order. -/
def EXPECTED_FEATURES : List String :=
  ["brokertitle", "type", "beds", "bath", "propertysqft", "sublocality"]

/-- `config.PRICE_RANGES`: fixed price-bucket thresholds. -/
def PRICE_RANGES : List (String × ℚ) :=
  [("budget", 400000), ("mid", 1000000), ("luxury", 2000000)]

/-- `predict.get_price_category`: budget strictly below the budget threshold,
luxury at or above the luxury threshold, mid-range in between. -/
def get_price_category (price : ℚ) : String :=
  if price < (assoc PRICE_RANGES "budget").getD 0 then "Budget-Friendly"
  else if price < (assoc PRICE_RANGES "luxury").getD 0 then "Mid-Range"
  else "Luxury"

/-- An input record: a dict of feature name to value. -/
abbrev Record := List (String × Val)

/-- The validation failure raised by `prepare_features`
(`ValueError(f"Missing required features: {missing_features}")`, the
`MissingFeatureError` of the design): it carries the full list of missing
fields. -/
inductive PredictError where
  | missingFeatureError (missing : List String)
deriving DecidableEq

/-- The list `[f for f in expected_features if f not in input_data]`. -/
def missingFeatures (input_data : Record) (expected_features : List String) : List String :=
  expected_features.filter (fun f => (assoc input_data f).isNone)

/-- `predict.prepare_features`: fail when any expected feature is absent,
naming all missing ones; otherwise reorder the record to the expected
feature order (extra fields dropped). -/
def prepare_features (input_data : Record) (expected_features : List String) :
    Except PredictError Record :=
  if missingFeatures input_data expected_features ≠ [] then
    Except.error (PredictError.missingFeatureError (missingFeatures input_data expected_features))
  else
    Except.ok (expected_features.map fun f => (f, (assoc input_data f).getD (Val.num 0)))

/-- The loaded model artifact, opaque: one log-scale scalar per prepared row.
Applying it row by row in a batch encodes the row-independence assumption of
the batch contract. -/
abbrev Model := Record → ℝ

/-- `metadata.get('data_info', {})` shape. -/
structure DataInfo where
  selected_features : Option (List String)
deriving DecidableEq

/-- The loaded metadata artifact (only the field the pipeline reads). -/
structure Metadata where
  data_info : Option DataInfo
deriving DecidableEq

/-- `metadata.get('data_info', {}).get('selected_features', EXPECTED_FEATURES)`. -/
def Metadata.expectedFeatures (md : Metadata) : List String :=
  ((md.data_info.getD { selected_features := none }).selected_features).getD EXPECTED_FEATURES

/-- `predict.predict_price`: prepare the record, run the model on the single
prepared row, and under the (default) log-target mode return
`np.expm1` of the scalar, i.e. `exp s - 1`. -/
noncomputable def predict_price (model : Model) (input_data : Record)
    (use_log_target : Bool) : Except PredictError ℝ :=
  match prepare_features input_data EXPECTED_FEATURES with
  | Except.error e => Except.error e
  | Except.ok input_df =>
    if use_log_target then Except.ok (Real.exp (model input_df) - 1)
    else Except.ok (model input_df)

/-- `predict.batch_predict`: reorder every row to the metadata's expected
feature order, run the model once over the batch (row-wise), and apply
`np.expm1` elementwise. -/
noncomputable def batch_predict (model : Model) (metadata : Metadata)
    (data : List Record) : List ℝ :=
  let expected_features := metadata.expectedFeatures
  let input_df := data.map fun row =>
    expected_features.map fun f => (f, (assoc row f).getD (Val.num 0))
  let log_predictions := input_df.map model
  log_predictions.map fun x => Real.exp x - 1

/-- The key order used by `predict.cached_predict` to rebuild a dict from the
cache-key tuple. -/
def cachedKeys : List String :=
  ["brokertitle", "type", "beds", "bath", "propertysqft", "sublocality"]

/-- The `lru_cache` state of `cached_predict`: input tuple to cached price. -/
abbrev PredictCache := List (List Val × ℝ)

/-- `predict.cached_predict`: on a cache hit return the stored price; on a
miss call `predict_price` on the rebuilt dict and (on success) store the
result.  A raising call caches nothing. -/
noncomputable def cached_predict (model : Model) (cache : PredictCache)
    (input_tuple : List Val) : Except PredictError ℝ × PredictCache :=
  match assoc cache input_tuple with
  | some p => (Except.ok p, cache)
  | none =>
    match predict_price model (cachedKeys.zip input_tuple) true with
    | Except.ok p => (Except.ok p, cache ++ [(input_tuple, p)])
    | Except.error e => (Except.error e, cache)

/-- The cache state after serving a history of requests, starting empty. -/
noncomputable def serveHistory (model : Model) (hist : List (List Val)) : PredictCache :=
  hist.foldl (fun c t => (cached_predict model c t).2) []

/-- Cache correctness: every stored price is the price `predict_price` returns
for the stored key. -/
def cacheOK (model : Model) (cache : PredictCache) : Prop :=
  ∀ k p, (k, p) ∈ cache → predict_price model (cachedKeys.zip k) true = Except.ok p


/-! ### Association-list lemmas -/

theorem assoc_nil {α β : Type} [DecidableEq α] (k : α) :
    assoc ([] : List (α × β)) k = none := rfl

theorem assoc_dictInsert_self {α β : Type} [DecidableEq α]
    (m : List (α × β)) (k : α) (v : β) :
    assoc (dictInsert m k v) k = some v := by
  induction m with
  | nil => simp [dictInsert, assoc]
  | cons p rest ih =>
    obtain ⟨k', v'⟩ := p
    by_cases h : k' = k
    · simp [dictInsert, h, assoc]
    · simp [dictInsert, h, assoc, ih]

theorem assoc_dictInsert_ne {α β : Type} [DecidableEq α]
    (m : List (α × β)) (k k' : α) (v : β) (h : k ≠ k') :
    assoc (dictInsert m k v) k' = assoc m k' := by
  induction m with
  | nil => simp [dictInsert, assoc, h]
  | cons p rest ih =>
    obtain ⟨k₀, v₀⟩ := p
    by_cases h0 : k₀ = k
    · subst h0
      simp [dictInsert, assoc, h]
    · simp [dictInsert, h0, assoc, ih]

theorem assoc_mem {α β : Type} [DecidableEq α]
    (m : List (α × β)) (k : α) (v : β) (h : assoc m k = some v) : (k, v) ∈ m := by
  induction m with
  | nil => simp [assoc] at h
  | cons p rest ih =>
    obtain ⟨k', v'⟩ := p
    by_cases hk : k' = k
    · subst hk
      simp [assoc] at h
      simp [h]
    · simp [assoc, hk] at h
      exact List.mem_cons_of_mem _ (ih h)

theorem assoc_map_pair {α β : Type} [DecidableEq α] (l : List α) (f : α → β) (k : α) :
    assoc (l.map fun a => (a, f a)) k = if k ∈ l then some (f k) else none := by
  induction l with
  | nil => simp [assoc]
  | cons a l ih =>
    by_cases h : a = k
    · subst h
      simp [assoc]
    · simp [assoc, h, ih, Ne.symm h]

theorem assoc_valueCounts (vs : List Val) (v : Val) :
    assoc (valueCounts vs) v = if v ∈ vs then some (vs.count v) else none := by
  simpa [valueCounts, List.mem_dedup] using assoc_map_pair vs.dedup (fun w => vs.count w) v

/-! ### Fit-fold lemmas -/

theorem fitFold_nil (m : List (String × List (Val × Nat))) : fitFold m [] = m := rfl

theorem fitFold_cons (m : List (String × List (Val × Nat))) (c : Column) (X : Frame) :
    fitFold m (c :: X) = fitFold (dictInsert m c.name (valueCounts c.values)) X := rfl

theorem assoc_fitFold_notMem (m : List (String × List (Val × Nat))) (X : Frame)
    (k : String) (h : ∀ c ∈ X, c.name ≠ k) :
    assoc (fitFold m X) k = assoc m k := by
  induction X generalizing m with
  | nil => rfl
  | cons c X ih =>
    rw [fitFold_cons, ih _ (fun d hd => h d (List.mem_cons_of_mem _ hd)),
      assoc_dictInsert_ne _ _ _ _ (h c (List.mem_cons_self _ _))]

theorem assoc_fitFold_mem (m : List (String × List (Val × Nat))) (X : Frame)
    (hnodup : (X.map Column.name).Nodup) (c : Column) (hc : c ∈ X) :
    assoc (fitFold m X) c.name = some (valueCounts c.values) := by
  induction X generalizing m with
  | nil => cases hc
  | cons a X ih =>
    rw [List.map_cons, List.nodup_cons] at hnodup
    rcases List.mem_cons.mp hc with h | h
    · subst h
      rw [fitFold_cons, assoc_fitFold_notMem]
      · exact assoc_dictInsert_self _ _ _
      · intro d hd hdc
        exact hnodup.1 (hdc ▸ List.mem_map_of_mem Column.name hd)
    · rw [fitFold_cons]
      exact ih _ hnodup.2 h

theorem assoc_fitFold_cases (m : List (String × List (Val × Nat))) (X : Frame)
    (k : String) (tbl : List (Val × Nat)) (h : assoc (fitFold m X) k = some tbl) :
    assoc m k = some tbl ∨ ∃ c ∈ X, c.name = k ∧ tbl = valueCounts c.values := by
  induction X generalizing m with
  | nil => exact Or.inl h
  | cons a X ih =>
    rw [fitFold_cons] at h
    rcases ih _ h with h' | ⟨c, hc, hk, ht⟩
    · by_cases hk : a.name = k
      · subst hk
        rw [assoc_dictInsert_self] at h'
        exact Or.inr ⟨a, List.mem_cons_self _ _, rfl, (Option.some_injective _ h').symm⟩
      · rw [assoc_dictInsert_ne _ _ _ _ hk] at h'
        exact Or.inl h'
    · exact Or.inr ⟨c, List.mem_cons_of_mem _ hc, hk, ht⟩


/-! ### Claim C2: price-bucket boundaries -/

/-- C2: `get_price_category` returns Budget-Friendly exactly when the price is
strictly below the budget threshold (400000), Luxury exactly when it is at or
above the luxury threshold (2000000), Mid-Range otherwise; in particular the
budget threshold itself is Mid-Range and the luxury threshold itself is
Luxury. -/
theorem get_price_category_boundaries (price : ℚ) :
    assoc PRICE_RANGES "budget" = some 400000 ∧
    assoc PRICE_RANGES "luxury" = some 2000000 ∧
    (get_price_category price = "Budget-Friendly" ↔ price < 400000) ∧
    (get_price_category price = "Luxury" ↔ 2000000 ≤ price) ∧
    (get_price_category price = "Mid-Range" ↔ 400000 ≤ price ∧ price < 2000000) ∧
    get_price_category 400000 = "Mid-Range" ∧
    get_price_category 2000000 = "Luxury" := by
  have hb : (assoc PRICE_RANGES "budget").getD 0 = 400000 := by decide
  have hl : (assoc PRICE_RANGES "luxury").getD 0 = 2000000 := by decide
  refine ⟨by decide, by decide, ?_, ?_, ?_, by decide, by decide⟩ <;>
    · unfold get_price_category
      rw [hb, hl]
      by_cases h1 : price < 400000 <;> by_cases h2 : price < 2000000 <;>
        simp [h1, h2] <;> linarith

/-! ### Claim C6: transform before fit -/

/-- C6 counterexample: calling `transform` on a never-fitted encoder does not
fail; on a concrete one-column batch it returns a result (the batch itself). -/
theorem transform_before_fit_returns :
    (FrequencyEncoder.mkNew "zero").transform
        [{ name := "brokertitle", values := [Val.str "Brokered by COMPASS"] }]
      = [{ name := "brokertitle", values := [Val.str "Brokered by COMPASS"] }] := by
  decide

/-- C6 amended: `transform` called before any `fit` does not raise: since
`frequency_maps_` is empty, no column has a table, so the whole batch passes
through unchanged. -/
theorem transform_unfitted_id (handle_unknown : String) (X : Frame) :
    (FrequencyEncoder.mkNew handle_unknown).transform X = X := by
  show X.map (fun c => c) = X
  simp

/-! ### Claim C7: re-fitting -/

/-- C7 counterexample: `fit` never clears `frequency_maps_`, so re-fitting on a
batch with a different column leaves the stale table behind — the refitted
encoder differs from a freshly constructed encoder fitted only on the new
batch. -/
theorem refit_keeps_stale_tables :
    (((FrequencyEncoder.mkNew "zero").fit
        [{ name := "a", values := [Val.str "x"] }]).fit
        [{ name := "b", values := [Val.str "y"] }]).frequency_maps_
      ≠ ((FrequencyEncoder.mkNew "zero").fit
        [{ name := "b", values := [Val.str "y"] }]).frequency_maps_ := by
  decide

/-- C7 amended: re-fitting overwrites the table of every column present in the
new batch — for each such column the refitted encoder's table equals that of a
freshly constructed encoder fitted only on the new batch — but tables for
columns seen only in earlier fits persist, so whole-state equality fails in
general. -/
theorem refit_column_tables_fresh (e : FrequencyEncoder) (handle_unknown : String)
    (Y : Frame) (hnodup : (Y.map Column.name).Nodup) (c : Column) (hc : c ∈ Y) :
    assoc (e.fit Y).frequency_maps_ c.name
      = assoc ((FrequencyEncoder.mkNew handle_unknown).fit Y).frequency_maps_ c.name := by
  show assoc (fitFold e.frequency_maps_ Y) c.name = assoc (fitFold [] Y) c.name
  rw [assoc_fitFold_mem _ _ hnodup c hc, assoc_fitFold_mem _ _ hnodup c hc]

/-- Witness for the amended C7 theorem at a concrete refit. -/
theorem refit_column_tables_fresh_witness :
    assoc (((FrequencyEncoder.mkNew "zero").fit
        [{ name := "a", values := [Val.str "x"] }]).fit
        [{ name := "b", values := [Val.str "y"] }]).frequency_maps_ "b"
      = assoc ((FrequencyEncoder.mkNew "zero").fit
        [{ name := "b", values := [Val.str "y"] }]).frequency_maps_ "b" :=
  refit_column_tables_fresh _ "zero" _ (by decide)
    { name := "b", values := [Val.str "y"] } (by decide)

/-! ### Claim C1: fitted transform maps values to fit-time counts -/

/-- C1: after fitting on a batch (with distinct column names), transforming a
column that was fitted maps every value seen exactly n times at fit time to n,
and every unseen value to 0 under the `zero` policy and to 1 under any other
policy (in particular `rare`). -/
theorem fitted_transform_counts (e0 : FrequencyEncoder) (X : Frame)
    (hnodup : (X.map Column.name).Nodup) (c : Column) (hc : c ∈ X) (ws : List Val) :
    (e0.fit X).transform [{ name := c.name, values := ws }]
      = [{ name := c.name, values := ws.map (fun v =>
          if v ∈ c.values then Val.num ((c.values.count v : ℚ))
          else if e0.handle_unknown = "zero" then Val.num 0 else Val.num 1) }] := by
  have htbl : assoc (e0.fit X).frequency_maps_ c.name = some (valueCounts c.values) :=
    assoc_fitFold_mem _ _ hnodup c hc
  have henc : encodeVal e0.handle_unknown (valueCounts c.values) = fun v =>
      if v ∈ c.values then Val.num ((c.values.count v : ℚ))
      else if e0.handle_unknown = "zero" then Val.num 0 else Val.num 1 := by
    funext v
    unfold encodeVal
    rw [assoc_valueCounts]
    by_cases hv : v ∈ c.values <;> simp [hv]
  unfold FrequencyEncoder.transform
  rw [List.map_singleton, htbl, ← henc]
  rfl

/-- Witness for the C1 theorem on a concrete fit batch and transform batch. -/
theorem fitted_transform_counts_witness :
    ((FrequencyEncoder.mkNew "zero").fit
        [{ name := "brokertitle", values := [Val.str "A", Val.str "A", Val.str "B"] }]).transform
        [{ name := "brokertitle", values := [Val.str "A", Val.str "C"] }]
      = [{ name := "brokertitle", values := [Val.num 2, Val.num 0] }] := by
  have h := fitted_transform_counts (FrequencyEncoder.mkNew "zero")
    [{ name := "brokertitle", values := [Val.str "A", Val.str "A", Val.str "B"] }]
    (by decide)
    { name := "brokertitle", values := [Val.str "A", Val.str "A", Val.str "B"] }
    (by decide) [Val.str "A", Val.str "C"]
  simpa using h

/-! ### Claim C9: transform is a frame-preserving per-column map -/

/-- C9: `transform` preserves the number of columns, every column's name and
position, and every column's row count; a column with no fitted frequency
table passes through completely unchanged. -/
theorem transform_preserves_shape (e : FrequencyEncoder) (X : Frame) (i : Nat)
    (c : Column) (hic : X[i]? = some c) :
    (e.transform X).length = X.length ∧
    (e.transform X)[i]?.map Column.name = some c.name ∧
    (e.transform X)[i]?.map (fun d => d.values.length) = some c.values.length ∧
    (assoc e.frequency_maps_ c.name = none → (e.transform X)[i]? = some c) := by
  have hget : (e.transform X)[i]? = some (
      match assoc e.frequency_maps_ c.name with
      | some fm => { c with values := c.values.map (encodeVal e.handle_unknown fm) }
      | none => c) := by
    unfold FrequencyEncoder.transform
    rw [List.getElem?_map, hic]
    rfl
  refine ⟨by unfold FrequencyEncoder.transform; simp, ?_, ?_, ?_⟩
  · rw [hget]
    cases hassoc : assoc e.frequency_maps_ c.name <;> simp [hassoc]
  · rw [hget]
    cases hassoc : assoc e.frequency_maps_ c.name <;> simp [hassoc]
  · intro hnone
    rw [hget, hnone]

/-- Witness for the C9 theorem: a one-table encoder leaves the second,
unfitted column of a two-column batch untouched. -/
theorem transform_preserves_shape_witness :
    (((FrequencyEncoder.mkNew "zero").fit
        [{ name := "t", values := [Val.str "x"] }]).transform
        [{ name := "t", values := [Val.str "x"] },
         { name := "u", values := [Val.str "y", Val.num 3] }]).length
      = ([{ name := "t", values := [Val.str "x"] },
          { name := "u", values := [Val.str "y", Val.num 3] }] : Frame).length ∧
    (((FrequencyEncoder.mkNew "zero").fit
        [{ name := "t", values := [Val.str "x"] }]).transform
        [{ name := "t", values := [Val.str "x"] },
         { name := "u", values := [Val.str "y", Val.num 3] }])[1]?.map Column.name
      = some "u" ∧
    (((FrequencyEncoder.mkNew "zero").fit
        [{ name := "t", values := [Val.str "x"] }]).transform
        [{ name := "t", values := [Val.str "x"] },
         { name := "u", values := [Val.str "y", Val.num 3] }])[1]?.map
        (fun d => d.values.length)
      = some ([Val.str "y", Val.num 3] : List Val).length ∧
    (assoc ((FrequencyEncoder.mkNew "zero").fit
        [{ name := "t", values := [Val.str "x"] }]).frequency_maps_ "u" = none →
      (((FrequencyEncoder.mkNew "zero").fit
        [{ name := "t", values := [Val.str "x"] }]).transform
        [{ name := "t", values := [Val.str "x"] },
         { name := "u", values := [Val.str "y", Val.num 3] }])[1]?
        = some { name := "u", values := [Val.str "y", Val.num 3] }) :=
  transform_preserves_shape
    ((FrequencyEncoder.mkNew "zero").fit [{ name := "t", values := [Val.str "x"] }])
    [{ name := "t", values := [Val.str "x"] },
     { name := "u", values := [Val.str "y", Val.num 3] }]
    1 { name := "u", values := [Val.str "y", Val.num 3] } (by decide)

/-! ### Claim C10: fitted counts are positive -/

/-- C10: every count stored by `fit` (from a fresh encoder) is at least 1, and
consequently under the `zero` policy an encoded value of 0 can only arise from
a category absent from the fitted column's values. -/
theorem fit_counts_positive (handle_unknown : String) (X : Frame) (col : String)
    (tbl : List (Val × Nat)) (v : Val) (n : Nat)
    (h : assoc ((FrequencyEncoder.mkNew handle_unknown).fit X).frequency_maps_ col
      = some tbl) :
    ((v, n) ∈ tbl → 1 ≤ n) ∧
    (handle_unknown = "zero" → encodeVal handle_unknown tbl v = Val.num 0 →
      ∃ c ∈ X, c.name = col ∧ v ∉ c.values) := by
  rcases assoc_fitFold_cases [] X col tbl h with h' | ⟨c, hcX, hname, htbl⟩
  · simp [assoc] at h'
  subst htbl
  constructor
  · intro hmem
    obtain ⟨w, hw, hwe⟩ := List.mem_map.mp hmem
    have h1 : w = v := congrArg Prod.fst hwe
    have h2 : c.values.count w = n := congrArg Prod.snd hwe
    subst h1
    subst h2
    exact List.count_pos_iff.mpr (List.mem_dedup.mp hw)
  · intro hz henc
    refine ⟨c, hcX, hname, ?_⟩
    intro hv
    unfold encodeVal at henc
    rw [assoc_valueCounts] at henc
    simp [hv] at henc
    have hc0 : c.values.count v = 0 := by exact_mod_cast henc
    have hpos : 0 < c.values.count v := List.count_pos_iff.mpr hv
    omega

/-- Witness for the C10 theorem on a concrete fit batch, table, and unseen
value. -/
theorem fit_counts_positive_witness :
    ((Val.str "b", 2) ∈ valueCounts [Val.str "a", Val.str "a"] → 1 ≤ 2) ∧
    ("zero" = "zero" →
      encodeVal "zero" (valueCounts [Val.str "a", Val.str "a"]) (Val.str "b") = Val.num 0 →
      ∃ c ∈ ([{ name := "c1", values := [Val.str "a", Val.str "a"] }] : Frame),
        c.name = "c1" ∧ Val.str "b" ∉ c.values) :=
  fit_counts_positive "zero" [{ name := "c1", values := [Val.str "a", Val.str "a"] }]
    "c1" (valueCounts [Val.str "a", Val.str "a"]) (Val.str "b") 2 (by decide)

/-! ### Claims C3, C4, C5, C8: the prediction pipeline -/

/-- When no expected feature is missing, `predict_price` in log-target mode
returns `exp (model row) - 1` on the reordered single row. -/
theorem predict_price_ok (model : Model) (r : Record)
    (h : missingFeatures r EXPECTED_FEATURES = []) :
    predict_price model r true = Except.ok
      (Real.exp (model (EXPECTED_FEATURES.map fun f =>
        (f, (assoc r f).getD (Val.num 0)))) - 1) := by
  unfold predict_price prepare_features
  rw [if_neg (by simp [h])]
  rfl

/-- C3: for a record containing all six required fields, the predicted price
is `exp s - 1` where `s` is the scalar the model emits on the reordered
single-row input. -/
theorem predict_price_inverse_log (model : Model) (r : Record)
    (h : ∀ f ∈ EXPECTED_FEATURES, (assoc r f).isSome) :
    predict_price model r true
      = Except.ok (Real.exp (model (EXPECTED_FEATURES.map fun f =>
          (f, (assoc r f).getD (Val.num 0)))) - 1) := by
  apply predict_price_ok
  unfold missingFeatures
  rw [List.filter_eq_nil_iff]
  intro f hf
  have hs := h f hf
  cases hassoc : assoc r f with
  | none => rw [hassoc] at hs; simp at hs
  | some w => simp [hassoc]

/-- Witness for the C3 theorem on a complete concrete record and a constant
model. -/
theorem predict_price_inverse_log_witness :
    predict_price (fun _ => (0 : ℝ))
      [("brokertitle", Val.str "Brokered by COMPASS"), ("type", Val.str "Condo for sale"),
       ("beds", Val.num 2), ("bath", Val.num 1), ("propertysqft", Val.num 800),
       ("sublocality", Val.str "Manhattan")] true
      = Except.ok (Real.exp 0 - 1) :=
  predict_price_inverse_log (fun _ => (0 : ℝ))
    [("brokertitle", Val.str "Brokered by COMPASS"), ("type", Val.str "Condo for sale"),
     ("beds", Val.num 2), ("bath", Val.num 1), ("propertysqft", Val.num 800),
     ("sublocality", Val.str "Manhattan")] (by decide)

/-- C4: a record missing a required field makes `predict_price` fail with the
missing-features error; the error's list contains every missing field, and the
result does not depend on the model — the model is never invoked. -/
theorem predict_missing_feature_error (model₁ model₂ : Model) (r : Record) (u : Bool)
    (f : String) (hf : f ∈ EXPECTED_FEATURES) (hnone : assoc r f = none) :
    predict_price model₁ r u
        = Except.error (PredictError.missingFeatureError (missingFeatures r EXPECTED_FEATURES)) ∧
    f ∈ missingFeatures r EXPECTED_FEATURES ∧
    predict_price model₁ r u = predict_price model₂ r u := by
  have hmem : f ∈ missingFeatures r EXPECTED_FEATURES := by
    unfold missingFeatures
    exact List.mem_filter.mpr ⟨hf, by simp [hnone]⟩
  have hne : missingFeatures r EXPECTED_FEATURES ≠ [] := by
    intro h0
    rw [h0] at hmem
    cases hmem
  have herr : ∀ model : Model, predict_price model r u
      = Except.error (PredictError.missingFeatureError (missingFeatures r EXPECTED_FEATURES)) := by
    intro model
    unfold predict_price prepare_features
    rw [if_pos hne]
  exact ⟨herr model₁, hmem, (herr model₁).trans (herr model₂).symm⟩

/-- Witness for the C4 theorem: a record missing `beds` and `bath` yields the
error naming both, independently of the model. -/
theorem predict_missing_feature_error_witness :
    predict_price (fun _ => (0 : ℝ))
        [("brokertitle", Val.str "B"), ("type", Val.str "T"),
         ("propertysqft", Val.num 800), ("sublocality", Val.str "M")] true
      = Except.error (PredictError.missingFeatureError ["beds", "bath"]) ∧
    "beds" ∈ ["beds", "bath"] ∧
    predict_price (fun _ => (0 : ℝ))
        [("brokertitle", Val.str "B"), ("type", Val.str "T"),
         ("propertysqft", Val.num 800), ("sublocality", Val.str "M")] true
      = predict_price (fun _ => (1 : ℝ))
        [("brokertitle", Val.str "B"), ("type", Val.str "T"),
         ("propertysqft", Val.num 800), ("sublocality", Val.str "M")] true :=
  predict_missing_feature_error (fun _ => (0 : ℝ)) (fun _ => (1 : ℝ)) _ true
    "beds" (by decide) (by decide)

/-- C5: when the metadata's selected features agree with the configured
expected features and every row is valid, `batch_predict` returns one price
per input row in input order, and the i-th price is exactly what
`predict_price` returns on row i alone. -/
theorem batch_predict_matches_predict (model : Model) (md : Metadata)
    (data : List Record) (i : Nat) (r : Record)
    (hmd : md.expectedFeatures = EXPECTED_FEATURES)
    (hvalid : ∀ row ∈ data, missingFeatures row EXPECTED_FEATURES = [])
    (hir : data[i]? = some r) :
    (batch_predict model md data).length = data.length ∧
    (batch_predict model md data)[i]? = (predict_price model r true).toOption := by
  have hr : r ∈ data := List.getElem?_mem hir
  have hbatch : batch_predict model md data
      = data.map (fun row => Real.exp (model (EXPECTED_FEATURES.map fun f =>
          (f, (assoc row f).getD (Val.num 0)))) - 1) := by
    unfold batch_predict
    rw [hmd]
    simp only [List.map_map]
    rfl
  constructor
  · rw [hbatch]
    simp
  · rw [hbatch, List.getElem?_map, hir, predict_price_ok model r (hvalid r hr)]
    rfl

/-- Witness for the C5 theorem on a concrete two-row batch. -/
theorem batch_predict_matches_predict_witness :
    (batch_predict (fun _ => (0 : ℝ)) { data_info := none }
        [[("brokertitle", Val.str "b"), ("type", Val.str "t"), ("beds", Val.num 1),
          ("bath", Val.num 1), ("propertysqft", Val.num 100), ("sublocality", Val.str "s")],
         [("brokertitle", Val.str "b"), ("type", Val.str "t"), ("beds", Val.num 1),
          ("bath", Val.num 1), ("propertysqft", Val.num 100), ("sublocality", Val.str "s")]]).length
      = 2 ∧
    (batch_predict (fun _ => (0 : ℝ)) { data_info := none }
        [[("brokertitle", Val.str "b"), ("type", Val.str "t"), ("beds", Val.num 1),
          ("bath", Val.num 1), ("propertysqft", Val.num 100), ("sublocality", Val.str "s")],
         [("brokertitle", Val.str "b"), ("type", Val.str "t"), ("beds", Val.num 1),
          ("bath", Val.num 1), ("propertysqft", Val.num 100), ("sublocality", Val.str "s")]])[1]?
      = (predict_price (fun _ => (0 : ℝ))
          [("brokertitle", Val.str "b"), ("type", Val.str "t"), ("beds", Val.num 1),
           ("bath", Val.num 1), ("propertysqft", Val.num 100), ("sublocality", Val.str "s")]
          true).toOption :=
  batch_predict_matches_predict (fun _ => (0 : ℝ)) { data_info := none }
    [[("brokertitle", Val.str "b"), ("type", Val.str "t"), ("beds", Val.num 1),
      ("bath", Val.num 1), ("propertysqft", Val.num 100), ("sublocality", Val.str "s")],
     [("brokertitle", Val.str "b"), ("type", Val.str "t"), ("beds", Val.num 1),
      ("bath", Val.num 1), ("propertysqft", Val.num 100), ("sublocality", Val.str "s")]]
    1
    [("brokertitle", Val.str "b"), ("type", Val.str "t"), ("beds", Val.num 1),
     ("bath", Val.num 1), ("propertysqft", Val.num 100), ("sublocality", Val.str "s")]
    (by decide) (by decide) (by decide)

/-- On a correct cache, the value returned by `cached_predict` is exactly the
direct prediction, hit or miss. -/
theorem cached_predict_fst (model : Model) (cache : PredictCache) (t : List Val)
    (h : cacheOK model cache) :
    (cached_predict model cache t).1 = predict_price model (cachedKeys.zip t) true := by
  unfold cached_predict
  cases hassoc : assoc cache t with
  | some p =>
    exact (h t p (assoc_mem _ _ _ hassoc)).symm
  | none =>
    cases hp : predict_price model (cachedKeys.zip t) true <;> rfl

/-- `cached_predict` preserves cache correctness. -/
theorem cached_predict_snd (model : Model) (cache : PredictCache) (t : List Val)
    (h : cacheOK model cache) :
    cacheOK model (cached_predict model cache t).2 := by
  unfold cached_predict
  cases hassoc : assoc cache t with
  | some p =>
    exact h
  | none =>
    cases hp : predict_price model (cachedKeys.zip t) true with
    | error e =>
      exact h
    | ok p =>
      show cacheOK model (cache ++ [(t, p)])
      intro k q hkq
      rcases List.mem_append.mp hkq with hin | hin
      · exact h k q hin
      · rw [List.mem_singleton, Prod.mk.injEq] at hin
        obtain ⟨rfl, rfl⟩ := hin
        exact hp

/-- Any cache reached by serving a request history starting from the empty
cache is correct. -/
theorem serveHistory_ok (model : Model) (hist : List (List Val)) :
    cacheOK model (serveHistory model hist) := by
  unfold serveHistory
  suffices h : ∀ cache, cacheOK model cache →
      cacheOK model (hist.foldl (fun c t => (cached_predict model c t).2) cache) by
    exact h [] (fun k p hkp => absurd hkp (List.not_mem_nil _))
  induction hist with
  | nil => exact fun cache hc => hc
  | cons t hist ih =>
    intro cache hc
    exact ih _ (cached_predict_snd model cache t hc)

/-- C8: prediction is deterministic and history-insensitive — serving the same
request tuple after any two request histories (through the result cache)
returns the same answer, namely the direct `predict_price` of that tuple. -/
theorem predict_deterministic (model : Model) (h₁ h₂ : List (List Val)) (t : List Val) :
    (cached_predict model (serveHistory model h₁) t).1
      = (cached_predict model (serveHistory model h₂) t).1 ∧
    (cached_predict model (serveHistory model h₁) t).1
      = predict_price model (cachedKeys.zip t) true := by
  have e1 := cached_predict_fst model _ t (serveHistory_ok model h₁)
  have e2 := cached_predict_fst model _ t (serveHistory_ok model h₂)
  exact ⟨e1.trans e2.symm, e1⟩
